import Mathlib

/-!
Verification of the tool-run scripts of `lifting-tools-ci`
(`tool_run_scripts/stats.py`, `toolcmd.py`, `rellic.py`, `anvill.py`,
`recompile.py`) against their natural-language specification.

The Python sources are shallowly embedded: the `Stats` statistics
dictionary becomes an insertion-ordered association list of JSON-style
values, fallible Python code returns `Except PyErr`, the regular
expressions of `toolcmd.py` are executed by a small greedy backtracking
matcher, and the process-spawning side of `ToolCmd.run` is abstracted
into an explicit `SpawnResult` describing the outcome of the one
`subprocess.run` call.
-/

namespace LiftCI

/-- Kinds of Python exceptions that the embedded code can raise. -/
inductive PyErr where
  | zeroDivision
  | typeError
  | valueError
  | runtimeError (msg : String)
deriving Repr, DecidableEq

/-- Decidable equality of Except results, for evaluating the embedded
functions on concrete inputs. -/
instance exceptDecEq {ε α : Type} [DecidableEq ε] [DecidableEq α] :
    DecidableEq (Except ε α)
  | .ok a, .ok b =>
      if h : a = b then .isTrue (by rw [h])
      else .isFalse (fun hh => h (Except.ok.inj hh))
  | .ok _, .error _ => .isFalse (fun hh => Except.noConfusion hh)
  | .error _, .ok _ => .isFalse (fun hh => Except.noConfusion hh)
  | .error e, .error f =>
      if h : e = f then .isTrue (by rw [h])
      else .isFalse (fun hh => h (Except.error.inj hh))

/-- A value stored in the `Stats.stats` (or `Stats.rules`) dictionary of
`stats.py`.  The program only ever stores integer counters (`inc_stat`),
strings (`set_stat` of a time stamp) and lists of path strings
(`add_stat`); rules files hold lists of pattern strings and scalar
settings. -/
inductive StatVal where
  | int (n : Int)
  | str (s : String)
  | list (xs : List String)
deriving Repr, DecidableEq

/-- The `self.stats` dictionary of `stats.py`: a Python dict, modelled as an
insertion-ordered association list. -/
abbrev StatsDict := List (String × StatVal)

/-- Python `d.get(key)` / `key in d`: the first (and, with unique keys, only)
binding of `key`. -/
def lookupStat : StatsDict → String → Option StatVal
  | [], _ => none
  | (k, v) :: rest, key => if k = key then some v else lookupStat rest key

/-- Python `d[key] = v`: overwrite the existing binding in place, or append a
new binding at the end (Python dicts preserve insertion order). -/
def setEntry : StatsDict → String → StatVal → StatsDict
  | [], key, v => [(key, v)]
  | (k, w) :: rest, key, v =>
      if k = key then (k, v) :: rest else (k, w) :: setEntry rest key v

/-- Stats.add_stat (stats.py:134-136): `self.stats.setdefault(key, []).append(value)`.
Appending to an int or str raises (no `append` attribute / not a list),
modelled as `typeError`. -/
def add_stat (d : StatsDict) (key value : String) : Except PyErr StatsDict :=
  match lookupStat d key with
  | none => .ok (setEntry d key (.list [value]))
  | some (.list xs) => .ok (setEntry d key (.list (xs ++ [value])))
  | some _ => .error .typeError

/-- Stats.inc_stat (stats.py:138-141): `item = self.stats.get(key, 0);
self.stats[key] = item + 1`.  Adding 1 to a str or list raises TypeError. -/
def inc_stat (d : StatsDict) (key : String) : Except PyErr StatsDict :=
  match lookupStat d key with
  | none => .ok (setEntry d key (.int 1))
  | some (.int n) => .ok (setEntry d key (.int (n + 1)))
  | some _ => .error .typeError

/-- Stats.set_stat (stats.py:143-145): `self.stats[key] = value`. -/
def set_stat (d : StatsDict) (key : String) (value : StatVal) : StatsDict :=
  setEntry d key value

/-- Bool test: `needle` is a prefix of `haystack` (on character lists). -/
def startsWithL : List Char → List Char → Bool
  | [], _ => true
  | _ :: _, [] => false
  | a :: as, b :: bs => a = b && startsWithL as bs

/-- Bool test: `needle` occurs contiguously inside `haystack`. -/
def containsL (needle : List Char) : List Char → Bool
  | [] => startsWithL needle []
  | c :: cs => startsWithL needle (c :: cs) || containsL needle cs

/-- Python substring test `needle in haystack` on strings. -/
def strContains (haystack needle : String) : Bool :=
  containsL needle.data haystack.data

/-- Evaluate `self.rules.get(key, [])` as a list of pattern strings.  The two
call sites iterate the result and substring-test each element, so a scalar
rules value is modelled as a TypeError. -/
def ruleList (rules : StatsDict) (key : String) : Except PyErr (List String) :=
  match lookupStat rules key with
  | none => .ok []
  | some (.list xs) => .ok xs
  | some _ => .error .typeError

/-- Stats.should_ignore (stats.py:24-32): some element of `tests.ignore` is a
substring of `filepath`. -/
def should_ignore (rules : StatsDict) (filepath : String) : Except PyErr Bool :=
  (ruleList rules "tests.ignore").map (fun items => items.any (fun i => strContains filepath i))

/-- Stats.should_skip (stats.py:34-40): some element of `tests.skip` is a
substring of `filepath`. -/
def should_skip (rules : StatsDict) (filepath : String) : Except PyErr Bool :=
  (ruleList rules "tests.skip").map (fun items => items.any (fun s => strContains filepath s))

/-- Python `len(v)`: defined for lists and strings, TypeError for ints. -/
def pyLen : StatVal → Except PyErr Int
  | .list xs => .ok xs.length
  | .str s => .ok s.length
  | .int _ => .error .typeError

/-- Coerce a stats value used as an arithmetic operand; a str or list operand
of `-` or `/` raises TypeError. -/
def asIntVal : StatVal → Except PyErr Int
  | .int n => .ok n
  | _ => .error .typeError

/-- Stats.get_fail_count (stats.py:89-95):
`(program_runs - ignored_outputs) - (success_runs + timed_out_runs)` where
`success_runs = len(stats.get("output.success", []))`,
`timed_out_runs = stats.get("program_timeouts", 0)`,
`program_runs = stats.get("program_runs", 0)`, and `ignored_outputs` sums the
lengths of `outputignore_success` and `outputignore_fail`. -/
def get_fail_count (d : StatsDict) : Except PyErr Int := do
  let success_runs ← pyLen ((lookupStat d "output.success").getD (.list []))
  let timed_out_runs ← asIntVal ((lookupStat d "program_timeouts").getD (.int 0))
  let program_runs ← asIntVal ((lookupStat d "program_runs").getD (.int 0))
  let ig1 ← pyLen ((lookupStat d "outputignore_success").getD (.list []))
  let ig2 ← pyLen ((lookupStat d "outputignore_fail").getD (.list []))
  return (program_runs - (ig1 + ig2)) - (success_runs + timed_out_runs)

/-- Interpret a stats value as an argument of `datetime.fromisoformat`:
a non-str raises TypeError, an unparsable string raises ValueError.  The
actual datetime parser is abstracted into the `parseTime` oracle, which
returns a timestamp in seconds. -/
def fromIso (parseTime : String → Option Int) : StatVal → Except PyErr Int
  | .str s =>
      match parseTime s with
      | some t => .ok t
      | none => .error .valueError
  | _ => .error .typeError

/-- Stats.print_stats (stats.py:97-129), returning the lines written to the
output stream.  `parseTime` abstracts `datetime.fromisoformat`; the
subtraction of two datetimes is modelled as integer seconds, and float
formatting of the derived quantities is abstracted by `toString` of the exact
rational value.  Faithfully to the source, `success_percent` is computed
(line 122) BEFORE the `program_runs != 0` guard (line 124), so a zero or
absent `program_runs` counter raises ZeroDivisionError. -/
def print_stats (parseTime : String → Option Int) (d : StatsDict) :
    Except PyErr (List String) := do
  let mut lines : List String := []
  match lookupStat d "start_time", lookupStat d "end_time" with
  | some sv, some ev =>
      let s ← fromIso parseTime sv
      let e ← fromIso parseTime ev
      let secs := e - s
      lines := lines ++ ["Run took " ++ toString secs]
      match lookupStat d "program_runs" with
      | some rv =>
          let runs ← asIntVal rv
          if secs = 0 then throw .zeroDivision
          let runs_per_sec : ℚ := (runs : ℚ) / (secs : ℚ)
          lines := lines ++ ["Speed of " ++ toString runs_per_sec ++ " runs/sec"]
      | none => pure ()
  | _, _ => pure ()
  let success_runs := (lookupStat d "output.success").getD (.list [])
  let success_items ← pyLen success_runs
  let pr ← asIntVal ((lookupStat d "program_runs").getD (.int 0))
  if pr = 0 then throw .zeroDivision
  let success_percent : ℚ := 100 * (success_items : ℚ) / (pr : ℚ)
  if pr ≠ 0 then
    lines := lines ++
      ["Success Metrics: [" ++ toString success_items ++ "/" ++ toString pr ++ "]",
       "Success Percentage: [" ++ toString success_percent ++ "%]"]
  return lines

end LiftCI

namespace LiftCI

/-! ## A small regex engine for the four patterns of toolcmd.py

The four module-level regular expressions of `toolcmd.py` are built from
literals, character classes under greedy `*` and `+`, and capture groups.
`matchItems` is a continuation-passing greedy backtracking matcher with
exactly the Python `re` semantics on this fragment: quantifiers prefer the
longest repetition and backtrack on failure, and `reSearchFrom` tries match
start positions left to right (leftmost match wins). -/

/-- One item of a regular expression: a literal, a greedy starred class, a
greedy plussed class, or a numbered capture group. -/
inductive RItem where
  | lit (cs : List Char)
  | many (p : Char → Bool)
  | manyOne (p : Char → Bool)
  | group (n : Nat) (items : List RItem)

/-- Captured groups: group number paired with the captured characters. -/
abbrev Groups := List (Nat × List Char)

/-- Length of the maximal prefix satisfying `p`. -/
def takeWhileCount (p : Char → Bool) : List Char → Nat
  | [] => 0
  | c :: cs => if p c then takeWhileCount p cs + 1 else 0

/-- Match `items` against a prefix of `cs`; every successful parse hands its
captured groups and the remaining input to the continuation `k`, and the
first parse accepted by `k` wins.  Greedy quantifiers enumerate repetition
counts from longest to shortest. -/
def matchItems : List RItem → List Char →
    (Groups → List Char → Option (Groups × List Char)) → Option (Groups × List Char)
  | [], cs, k => k [] cs
  | .lit l :: rest, cs, k =>
      if startsWithL l cs then matchItems rest (cs.drop l.length) k else none
  | .many p :: rest, cs, k =>
      let m := takeWhileCount p cs
      (List.range (m + 1)).reverse.findSome? (fun j => matchItems rest (cs.drop j) k)
  | .manyOne p :: rest, cs, k =>
      let m := takeWhileCount p cs
      ((List.range m).map (fun i => m - i)).findSome? (fun j => matchItems rest (cs.drop j) k)
  | .group n sub :: rest, cs, k =>
      matchItems sub cs (fun gsub cs2 =>
        matchItems rest cs2 (fun grest r =>
          k ((n, cs.take (cs.length - cs2.length)) :: (gsub ++ grest)) r))
termination_by items _ _ => sizeOf items

/-- Python re.search: try each start position left to right; return the
matched span (group 0) and the captured groups. -/
def reSearchFrom (items : List RItem) (cs : List Char) : Option (List Char × Groups) :=
  match matchItems items cs (fun g r => some (g, r)) with
  | some (g, r) => some (cs.take (cs.length - r.length), g)
  | none =>
    match cs with
    | [] => none
    | _ :: rest => reSearchFrom items rest
termination_by cs.length

def reSearch (items : List RItem) (s : String) : Option (String × Groups) :=
  (reSearchFrom items s.data).map (fun m => (m.1.asString, m.2))

/-- The text captured by group `n` of a match. -/
def getGroup (g : Groups) (n : Nat) : String :=
  ((List.lookup n g).getD []).asString

/-- Python \s (the tool logs being scanned are ASCII text). -/
def isSpaceC (c : Char) : Bool :=
  c = ' ' || c = '\t' || c = '\n' || c = '\r' || c = '\x0b' || c = '\x0c'

/-- Character class [^/\s]. -/
def notSlashSpace (c : Char) : Bool := !(c = '/') && !(isSpaceC c)

def isDigitC (c : Char) : Bool := c.isDigit

/-- Python \w (the scanned logs are ASCII). -/
def isWordC (c : Char) : Bool := c.isAlphanum || c = '_'

/-- The apostrophe character. -/
def apoChar : Char := Char.ofNat 39

def wordOrApo (c : Char) : Bool := isWordC c || c = apoChar

/-- The class of `.` (any character except a newline). -/
def dotC (c : Char) : Bool := !(c = '\n')

def notColon (c : Char) : Bool := !(c = ':')

/-- FILE_NAME_RE (toolcmd.py:13), one group capturing the whole pattern. -/
def fileNameItems : List RItem :=
  [.group 1 [.manyOne notSlashSpace, .lit ['.'], .manyOne notSlashSpace,
             .lit [':'], .manyOne isDigitC]]

/-- PYTHON_ERROR_RE (toolcmd.py:14). -/
def pythonErrorItems : List RItem :=
  [.group 1 [.manyOne notSlashSpace, .lit ".py".data],
   .lit "\", line ".data,
   .group 2 [.manyOne isDigitC]]

/-- ASAN_ERROR_RE (toolcmd.py:15). -/
def asanErrorItems : List RItem :=
  [.lit "AddressSanitizer: ".data,
   .manyOne (fun c => c.isAlpha || c = '-'),
   .lit [' '],
   .many dotC,
   .lit ['/'],
   .group 1 [.manyOne notColon, .lit [':'], .manyOne isDigitC]]

/-- CLANG_ERROR_RE (toolcmd.py:16). -/
def clangErrorItems : List RItem :=
  [.lit "error: ".data,
   .group 1 [.manyOne wordOrApo],
   .many (fun c => c = ' '),
   .group 2 [.many wordOrApo],
   .many (fun c => c = ' '),
   .group 3 [.manyOne wordOrApo],
   .many (fun c => c = ' '),
   .group 4 [.manyOne wordOrApo]]

/-- ASAN_ERROR_RE.search(ln) followed by fname.group(1). -/
def asanLineMatch (ln : String) : Option String :=
  (reSearch asanErrorItems ln).map (fun m => getGroup m.2 1)

/-- PYTHON_ERROR_RE.search(ln) followed by group(1) ++ ":" ++ group(2). -/
def pythonLineMatch (ln : String) : Option String :=
  (reSearch pythonErrorItems ln).map (fun m => getGroup m.2 1 ++ ":" ++ getGroup m.2 2)

/-- The one-character string holding an apostrophe. -/
def apoStr : String := String.singleton apoChar

/-- CLANG_ERROR_RE.search(ln) followed by
group(0).replace("error: ", "").replace(apostrophe, "").replace(" ", "_"). -/
def clangLineMatch (ln : String) : Option String :=
  (reSearch clangErrorItems ln).map (fun m =>
    ((m.1.replace "error: " "").replace apoStr "").replace " " "_")

/-- FILE_NAME_RE.search(ln) followed by fname.group(1). -/
def fileNameLineMatch (ln : String) : Option String :=
  (reSearch fileNameItems ln).map (fun m => getGroup m.2 1)

/-- Python str.splitlines, on \n-terminated text (the newline convention of
the captured stderr in this model): a terminator ends a line, a trailing
fragment without terminator is also a line, and the empty string has no
lines. -/
def splitLinesAux : List Char → List Char → List (List Char)
  | [], acc => if acc.isEmpty then [] else [acc.reverse]
  | c :: cs, acc =>
      if c = '\n' then acc.reverse :: splitLinesAux cs []
      else splitLinesAux cs (c :: acc)

def pySplitLines (s : String) : List String :=
  (splitLinesAux s.data []).map List.asString

/-- ToolCmd.clang_traceback (toolcmd.py:42-49): scan the lines of `msg`
bottom-to-top, returning the transformed CLANG_ERROR_RE match of the first
line (i.e. the textually last line) that matches. -/
def clang_traceback (msg : String) : Option String :=
  if msg = "" then none
  else (pySplitLines msg).reverse.findSome? clangLineMatch

/-- ToolCmd.asan_traceback (toolcmd.py:51-58). -/
def asan_traceback (msg : String) : Option String :=
  if msg = "" then none
  else (pySplitLines msg).reverse.findSome? asanLineMatch

/-- ToolCmd.python_traceback (toolcmd.py:60-69). -/
def python_traceback (msg : String) : Option String :=
  if msg = "" then none
  else (pySplitLines msg).reverse.findSome? pythonLineMatch

/-- ToolCmd.c_abort (toolcmd.py:71-94): first scan the lines top-to-bottom
for a line starting with "F" on which FILE_NAME_RE matches; otherwise scan
bottom-to-top for any FILE_NAME_RE match; otherwise None. -/
def c_abort (msg : String) : Option String :=
  if msg = "" then none
  else
    match (pySplitLines msg).findSome?
        (fun ln => if ln.startsWith "F" then fileNameLineMatch ln else none) with
    | some r => some r
    | none => (pySplitLines msg).reverse.findSome? fileNameLineMatch

/-- The rc_to_path dictionary of ToolCmd.get_output_path (toolcmd.py:97-107),
with the Linux signal numbers SIGBUS=7, SIGSEGV=11, SIGABRT=6, SIGILL=4. -/
def rc_to_path : List (Int × String) :=
  [(-131, "timeout"), (-130, "oserror"), (-129, "zero-sized-output"),
   (-7, "sigbus"), (-11, "sigsegv"), (-6, "sigabrt"), (-4, "sigill"),
   (0, "success"), (1, "Assertion")]

/-- Python dict .get on the int-keyed rc_to_path table. -/
def lookupRcPath : List (Int × String) → Int → Option String
  | [], _ => none
  | (k, v) :: rest, rc => if k = rc then some v else lookupRcPath rest rc

/-- ToolCmd.get_output_path (toolcmd.py:96-121): the final result category
for a completed invocation with stored return code `rc` and stderr `err`. -/
def get_output_path (rc : Int) (err : String) : String :=
  let default_location := (lookupRcPath rc_to_path rc).getD ("unknown_" ++ toString rc)
  if rc = 1 then
    if strContains err "AddressSanitizer" then (asan_traceback err).getD default_location
    else if strContains err "errors generated." || strContains err "error generated." then
      (clang_traceback err).getD default_location
    else (python_traceback err).getD default_location
  else if rc = -6 then (c_abort err).getD default_location
  else default_location

end LiftCI

namespace LiftCI

/-! ## ToolCmd.run (toolcmd.py:134-178)

The single `subprocess.run` call is abstracted into a `SpawnResult`
describing which of its four outcomes occurred (with `check=True`, a nonzero
exit status raises CalledProcessError, so `completed` carries the exit
status 0 of a normally completed child).  The computation of
`timeout_seconds` and the memory-limit `preexec_fn` only configure that call
and are absorbed into the abstraction (a malformed `timeout.seconds` rules
value, which would raise ValueError before anything is counted, is outside
the modelled states).  The filesystem state of `self.tmpout` after a
successful child exit is passed in as `tmpExists`/`tmpSize`. -/

/-- Outcome of the `subprocess.run` call in ToolCmd.run. -/
inductive SpawnResult where
  | osError (strerror : String)
  | calledProcessError (returncode : Int) (stdout stderr : String)
  | timeoutExpired (stdout stderr : String)
  | completed (returncode : Int) (stdout stderr : String)
deriving Repr, DecidableEq

/-- Events of one ToolCmd.run call, in execution order: stats counter
increments and the moment the child process is spawned (after which its
outcome is determined). -/
inductive RunEvent where
  | incStat (key : String)
  | spawnChild
deriving Repr, DecidableEq

/-- Result of one ToolCmd.run call: the value returned by `run()`, the
stored `self.rc`/`self.out`/`self.err` set by `set_output`, the updated
shared stats dictionary, and the ordered event trace. -/
structure RunResult where
  retVal : Int
  rc : Option Int
  out : String
  err : String
  stats : StatsDict
  trace : List RunEvent
deriving Repr, DecidableEq

/-- The zero-output test of toolcmd.py:170:
`not os.path.exists(self.tmpout) or 0 == os.path.getsize(self.tmpout)`. -/
def zeroOutput (tmpExists : Bool) (tmpSize : Nat) : Bool :=
  !tmpExists || tmpSize == 0

/-- ToolCmd.run (toolcmd.py:134-178). -/
def runCmd (spawn : SpawnResult) (tmpExists : Bool) (tmpSize : Nat)
    (stats : StatsDict) : Except PyErr RunResult := do
  let stats1 ← inc_stat stats "program_runs"
  match spawn with
  | .osError strerror =>
      return ⟨-130, some (-130), "", strerror, stats1,
              [.incStat "program_runs", .spawnChild]⟩
  | .calledProcessError rc o e =>
      return ⟨rc, some rc, o, e, stats1,
              [.incStat "program_runs", .spawnChild]⟩
  | .timeoutExpired o e =>
      let stats2 ← inc_stat stats1 "program_timeouts"
      return ⟨-131, some (-131), o, e, stats2,
              [.incStat "program_runs", .spawnChild, .incStat "program_timeouts"]⟩
  | .completed rc o e =>
      if zeroOutput tmpExists tmpSize then
        return ⟨-129, some (-129), o, e ++ "\n" ++ "Zero sized output", stats1,
                [.incStat "program_runs", .spawnChild]⟩
      else
        return ⟨rc, some rc, o, e, stats1,
                [.incStat "program_runs", .spawnChild]⟩

/-! ## The save() implementations (rellic.py, anvill.py, recompile.py) -/

/-- A filesystem or stats side effect performed by a save() implementation,
in program order. -/
inductive SaveEffect where
  | addStat (key value : String)
  | makedirs (p : String)
  | copyfile (src dst : String)
  | writeFile (p : String) (content : String)
deriving Repr, DecidableEq

/-- The fields of a ToolCmd-derived object that save() reads.  `infile` is
`str(self.infile)`; `infileRel` is `self.infile.relative_to(self.source_base)`
(precomputed; save() is only reached for files discovered under the source
base). -/
structure CmdState where
  infile : String
  infileRel : String
  outdir : String
  tmpout : String
  cmd : List String
  rc : Option Int
  out : String
  err : String
deriving Repr, DecidableEq

/-- Path join `a.joinpath(b)`. -/
def pathJoin (a b : String) : String := a ++ "/" ++ b

/-- The base-class ToolCmd.save (toolcmd.py:123-124): always raises. -/
def toolCmdSave : List SaveEffect × Option PyErr :=
  ([], some (.runtimeError "Please implement the save() method"))

/-- RellicCmd.save (rellic.py:80-125): effects in program order, or the
raised exception together with the effects already performed before it. -/
def rellicSave (rules : StatsDict) (st : CmdState) :
    List SaveEffect × Option PyErr :=
  match st.rc with
  | none => ([], some (.runtimeError "Return code never set"))
  | some rc =>
    let out_path_name := get_output_path rc st.err
    let pth := pathJoin (pathJoin st.outdir out_path_name) st.infileRel
    match should_ignore rules st.infile with
    | .error e => ([], some e)
    | .ok ign =>
      let out_key := if ign then "outputignore" else "output." ++ out_path_name
      ([.addStat out_key st.infile,
        .makedirs pth,
        .copyfile st.infile (pathJoin pth "input.bc")]
       ++ (if rc = 0 then [.copyfile st.tmpout (pathJoin pth "output.c")] else [])
       ++ [.writeFile (pathJoin pth "stdout") st.out,
           .writeFile (pathJoin pth "stderr") st.err,
           .writeFile (pathJoin pth "repro.sh")
             ("#!/bin/sh\n" ++ String.intercalate " " st.cmd ++ "\n")], none)

/-- AnvillGhidraCmd.save (anvill.py:79-125): unlike rellic it makes the
directory before recording the stat, and splits the ignored key into
outputignore_success / outputignore_fail. -/
def anvillGhidraSave (rules : StatsDict) (st : CmdState) :
    List SaveEffect × Option PyErr :=
  match st.rc with
  | none => ([], some (.runtimeError "Return code never set"))
  | some rc =>
    let out_path_name := get_output_path rc st.err
    let pth := pathJoin (pathJoin st.outdir out_path_name) st.infileRel
    match should_ignore rules st.infile with
    | .error e => ([.makedirs pth], some e)
    | .ok ign =>
      let out_key :=
        if ign then (if rc = 0 then "outputignore_success" else "outputignore_fail")
        else "output." ++ out_path_name
      ([.makedirs pth,
        .addStat out_key st.infile,
        .copyfile st.infile (pathJoin pth "input.elf")]
       ++ (if rc = 0 then [.copyfile st.tmpout (pathJoin pth "output.pb")] else [])
       ++ [.writeFile (pathJoin pth "stdout") st.out,
           .writeFile (pathJoin pth "stderr") st.err,
           .writeFile (pathJoin pth "repro.sh")
             ("#!/bin/sh\n" ++ String.intercalate " " st.cmd ++ "\n")], none)

/-- ClangCmd.save (recompile.py:62-110). -/
def clangSave (rules : StatsDict) (st : CmdState) :
    List SaveEffect × Option PyErr :=
  match st.rc with
  | none => ([], some (.runtimeError "Return code never set"))
  | some rc =>
    let out_path_name := get_output_path rc st.err
    let pth := pathJoin (pathJoin st.outdir out_path_name) st.infileRel
    match should_ignore rules st.infile with
    | .error e => ([], some e)
    | .ok ign =>
      let out_key :=
        if ign then (if rc = 0 then "outputignore_success" else "outputignore_fail")
        else "output." ++ out_path_name
      ([.addStat out_key st.infile,
        .makedirs pth,
        .copyfile st.infile (pathJoin pth "input.c")]
       ++ (if rc = 0 then [.copyfile st.tmpout (pathJoin pth "output.o")] else [])
       ++ [.writeFile (pathJoin pth "stdout") st.out,
           .writeFile (pathJoin pth "stderr") st.err,
           .writeFile (pathJoin pth "repro.sh")
             ("#!/bin/sh\n" ++ String.intercalate " " st.cmd ++ "\n")], none)

/-! ## Input discovery of the rellic executor (rellic.py:232-260) -/

/-- Bool test: `s` ends with `suffix`. -/
def strEndsWith (s suffix : String) : Bool :=
  startsWithL suffix.data.reverse s.data.reverse

/-- Model of `source_path.rglob("*.bc")` over an abstract recursive listing
of the input tree: the files whose name matches `*.bc`. -/
def rellicSources (files : List String) : List String :=
  files.filter (fun p => strEndsWith p ".bc")

/-- The work items of the rellic main program: `enumerate(sources)` is fed
unfiltered to the thread pool, and `run_rellic` (rellic.py:128-143)
constructs a RellicCmd and calls `run()` for every item.  The loaded rules
are passed to the Stats object but `should_skip` is never consulted, so the
`rules` argument does not influence the result. -/
def rellicMainInvocations (_rules : StatsDict) (files : List String) :
    List (Nat × String) :=
  (rellicSources files).enum

end LiftCI

namespace LiftCI

/-! ## save_json / load_json (stats.py:12-22)

`save_json` is `json.dump(self.stats, fo, indent=4, sort_keys=True)` and
`load_json` is `self.stats = json.load(fil)`.  The Python standard-library
json codec is modelled at the level of the JSON document written to (and
read back from) the file: `json.dump` writes the document obtained from the
stats dictionary with its keys sorted (`sort_keys=True`; `indent=4` only
affects whitespace), and `json.load` returns that document as a dict in the
file order of its keys. -/

/-- A JSON document. -/
inductive Json where
  | num (n : Int)
  | str (s : String)
  | arr (xs : List Json)
  | obj (fields : List (String × Json))
deriving Repr

/-- The JSON document for one stats value. -/
def statValToJson : StatVal → Json
  | .int n => .num n
  | .str s => .str s
  | .list xs => .arr (xs.map .str)

/-- Read back a list of JSON strings. -/
def decodeStrList : List Json → Option (List String)
  | [] => some []
  | .str s :: rest => (decodeStrList rest).map (fun xs => s :: xs)
  | _ => none

/-- Read back one stats value from its JSON document. -/
def jsonToStatVal : Json → Option StatVal
  | .num n => some (.int n)
  | .str s => some (.str s)
  | .arr xs => (decodeStrList xs).map .list
  | .obj _ => none

/-- Key order produced by `sort_keys=True`: the entries sorted by key. -/
def sortByKey (d : StatsDict) : StatsDict :=
  d.mergeSort (fun a b => a.1 ≤ b.1)

/-- Stats.save_json (stats.py:20-22): the JSON document written to the file,
keys sorted. -/
def save_json (d : StatsDict) : Json :=
  .obj ((sortByKey d).map (fun kv => (kv.1, statValToJson kv.2)))

/-- Read back the fields of the top-level JSON object. -/
def decodeFields : List (String × Json) → Option StatsDict
  | [] => some []
  | (k, j) :: rest => do
      let v ← jsonToStatVal j
      let tail ← decodeFields rest
      return (k, v) :: tail

/-- Stats.load_json (stats.py:12-14): the stats dictionary resulting from
reading the document back (in the file order of its keys). -/
def load_json : Json → Option StatsDict
  | .obj fields => decodeFields fields
  | _ => none

/-! ## Lock discipline of the mutating Stats operations (stats.py:134-145)

Each mutating operation is compiled to its ordered trace of atomic actions
on the process-shared state: acquiring/releasing `self.lock`, and reading /
writing a key of the shared `self.stats` dict.  `add_stat` performs its
read-modify-write inside `with self.lock:`; `inc_stat` and `set_stat`
perform theirs with no lock at all (their bodies carry the source comment
"probably needs a lock but #YOLO"). -/

/-- One atomic action on the shared Stats state. -/
inductive AtomAct where
  | acquire
  | release
  | readKey (key : String)
  | writeKey (key : String)
deriving Repr, DecidableEq

/-- Action trace of Stats.add_stat (stats.py:134-136). -/
def add_stat_actions (key : String) : List AtomAct :=
  [.acquire, .readKey key, .writeKey key, .release]

/-- Action trace of Stats.inc_stat (stats.py:138-141). -/
def inc_stat_actions (key : String) : List AtomAct :=
  [.readKey key, .writeKey key]

/-- Action trace of Stats.set_stat (stats.py:143-145). -/
def set_stat_actions (key : String) : List AtomAct :=
  [.writeKey key]

/-- Check that every shared read/write in a trace happens while the lock is
held (lock depth positive). -/
def mutationsLockedFrom : Nat → List AtomAct → Bool
  | _, [] => true
  | depth, .acquire :: rest => mutationsLockedFrom (depth + 1) rest
  | depth, .release :: rest => mutationsLockedFrom (depth - 1) rest
  | depth, .readKey _ :: rest => decide (0 < depth) && mutationsLockedFrom depth rest
  | depth, .writeKey _ :: rest => decide (0 < depth) && mutationsLockedFrom depth rest

def mutationsLocked (tr : List AtomAct) : Bool :=
  mutationsLockedFrom 0 tr

/-- Interpreter state of one thread running Stats.inc_stat: pc 0 is about to
execute `item = self.stats.get(key, 0)`, pc 1 is about to execute
`self.stats[key] = item + 1` with the read value in `localv`, pc 2 is done. -/
structure IncThread where
  pc : Nat
  localv : Int
deriving Repr, DecidableEq

/-- One unlocked step of inc_stat against the shared dict (the concrete
interleavings evaluated below run it on int-or-absent counters, where
`get(key, 0)` yields the stored value or 0). -/
def incStatStep (d : StatsDict) (key : String) (t : IncThread) :
    StatsDict × IncThread :=
  if t.pc = 0 then
    (d, ⟨1, match lookupStat d key with | some (.int n) => n | _ => 0⟩)
  else if t.pc = 1 then
    (setEntry d key (.int (t.localv + 1)), ⟨2, t.localv⟩)
  else (d, t)

/-- Run two threads, each executing inc_stat on `key`, under a schedule:
`false` steps thread 0, `true` steps thread 1. -/
def runIncSched (key : String) : List Bool → StatsDict → IncThread → IncThread → StatsDict
  | [], d, _, _ => d
  | b :: rest, d, t0, t1 =>
      if b then
        let s := incStatStep d key t1
        runIncSched key rest s.1 t0 s.2
      else
        let s := incStatStep d key t0
        runIncSched key rest s.1 s.2 t1

end LiftCI

namespace LiftCI

/-! ## Specification-side formulations

These definitions follow the wording of the specification (extract from the
last matching line, scan top-to-bottom for the first fatal line, and so on);
the theorems below compare them with the embedded source functions. -/

/-- Extraction from the textually LAST line of `msg` on which the per-line
extractor succeeds. -/
def lastLineMatch (extract : String → Option String) (msg : String) : Option String :=
  ((pySplitLines msg).filterMap extract).getLast?

/-- Extraction from the textually FIRST line of `msg` on which the per-line
extractor succeeds. -/
def firstLineMatch (extract : String → Option String) (msg : String) : Option String :=
  ((pySplitLines msg).filterMap extract).head?

/-- A fatal-log line: it begins with the fatal-severity marker "F" and
carries an extractable file:line. -/
def fatalLineMatch (ln : String) : Option String :=
  if ln.startsWith "F" then fileNameLineMatch ln else none

/-- Specification wording of the exit-status-1 classification: inspect
stderr for, in order, a sanitizer report, else a compiler-error pattern,
else a language-runtime traceback, each extracting from the last matching
line; if none match, fall back to the generic tag. -/
def specExitOneCategory (generic : String) (err : String) : String :=
  if strContains err "AddressSanitizer" then
    (lastLineMatch asanLineMatch err).getD generic
  else if strContains err "errors generated." || strContains err "error generated." then
    (lastLineMatch clangLineMatch err).getD generic
  else
    (lastLineMatch pythonLineMatch err).getD generic

/-- Specification wording of the SIGABRT classification: first scan
top-to-bottom for a fatal-log line, else scan bottom-to-top for any
file:line pattern, else fall back to the generic signal tag. -/
def specAbortCategory (err : String) : String :=
  ((firstLineMatch fatalLineMatch err).orElse
    (fun _ => lastLineMatch fileNameLineMatch err)).getD "sigabrt"

/-- The fixed category names of rc_to_path. -/
def canonicalCategories : List String :=
  ["timeout", "oserror", "zero-sized-output", "sigbus", "sigsegv", "sigabrt",
   "sigill", "success", "Assertion"]

/-- The fine-grained tags derivable from a given stderr text. -/
def derivedTags (err : String) : List String :=
  (asan_traceback err).toList ++ (clang_traceback err).toList ++
  (python_traceback err).toList ++ (c_abort err).toList

/-- Number of increments of `key` in a run trace. -/
def countKey (tr : List RunEvent) (key : String) : Nat :=
  tr.countP (fun e => e = RunEvent.incStat key)

/-- Did the spawn end in a timeout? -/
def isTimeout : SpawnResult → Bool
  | .timeoutExpired _ _ => true
  | _ => false

/-- Does some counter increment happen strictly before the child process is
spawned (hence before any outcome can be known)? -/
def incBeforeSpawn (tr : List RunEvent) : Bool :=
  (tr.takeWhile (fun e => !(e = RunEvent.spawnChild : Bool))).any
    (fun e => match e with | .incStat _ => true | _ => false)

/-- The integer counter stored at `key`, 0 when absent (specification-side
reading of the counters). -/
def getIntD (d : StatsDict) (key : String) : Int :=
  match lookupStat d key with
  | some (.int n) => n
  | _ => 0

/-- The key is absent or holds an integer counter. -/
def intOrAbsent (d : StatsDict) (key : String) : Prop :=
  lookupStat d key = none ∨ ∃ n, lookupStat d key = some (.int n)

/-! ## Helper lemmas -/

theorem findSome?_eq_head?_filterMap {α β : Type} (f : α → Option β) (l : List α) :
    l.findSome? f = (l.filterMap f).head? := by
  induction l with
  | nil => rfl
  | cons a l ih =>
      simp only [List.findSome?_cons, List.filterMap_cons]
      cases h : f a with
      | none => exact ih
      | some b => simp

theorem findSome?_reverse_eq_getLast? {α β : Type} (f : α → Option β) (l : List α) :
    l.reverse.findSome? f = (l.filterMap f).getLast? := by
  rw [findSome?_eq_head?_filterMap, List.filterMap_reverse, List.head?_reverse]

theorem lookup_setEntry (d : StatsDict) (key k : String) (v : StatVal) :
    lookupStat (setEntry d key v) k = if key = k then some v else lookupStat d k := by
  induction d with
  | nil => by_cases h : key = k <;> simp [setEntry, lookupStat, h]
  | cons p rest ih =>
      obtain ⟨k0, w⟩ := p
      by_cases h0 : k0 = key
      · subst h0
        by_cases h1 : k0 = k <;> simp [setEntry, lookupStat, h1]
      · by_cases h1 : k0 = k
        · subst h1
          have h0s : ¬ key = k0 := fun h => h0 h.symm
          simp [setEntry, lookupStat, h0, h0s]
        · simp [setEntry, lookupStat, h0, h1, ih]

theorem startsWithL_iff (needle haystack : List Char) :
    startsWithL needle haystack = true ↔ ∃ rest, haystack = needle ++ rest := by
  induction needle generalizing haystack with
  | nil => simp [startsWithL]
  | cons a as ih =>
      cases haystack with
      | nil => simp [startsWithL]
      | cons b bs =>
          simp only [startsWithL, Bool.and_eq_true, decide_eq_true_eq, ih]
          constructor
          · rintro ⟨hab, rest, hrest⟩
            exact ⟨rest, by rw [hab, hrest]; simp⟩
          · rintro ⟨rest, hrest⟩
            simp only [List.cons_append, List.cons.injEq] at hrest
            exact ⟨hrest.1.symm, rest, hrest.2⟩

theorem containsL_iff (needle haystack : List Char) :
    containsL needle haystack = true ↔
      ∃ pre post, haystack = pre ++ needle ++ post := by
  induction haystack with
  | nil =>
      simp only [containsL, startsWithL_iff]
      constructor
      · rintro ⟨rest, h⟩
        exact ⟨[], rest, by simpa using h⟩
      · rintro ⟨pre, post, h⟩
        have hn : needle = [] := (List.append_eq_nil.mp (List.append_eq_nil.mp h.symm).1).2
        exact ⟨[], by simp [hn]⟩
  | cons c cs ih =>
      simp only [containsL, Bool.or_eq_true, startsWithL_iff, ih]
      constructor
      · rintro (⟨rest, h⟩ | ⟨pre, post, h⟩)
        · exact ⟨[], rest, by simpa using h⟩
        · exact ⟨c :: pre, post, by simp [h]⟩
      · rintro ⟨pre, post, h⟩
        cases pre with
        | nil => exact Or.inl ⟨post, by simpa using h⟩
        | cons p ps =>
            simp only [List.cons_append, List.cons.injEq] at h
            exact Or.inr ⟨ps, post, h.2⟩

theorem strContains_iff (haystack needle : String) :
    strContains haystack needle = true ↔
      ∃ pre post, haystack.data = pre ++ needle.data ++ post := by
  exact containsL_iff needle.data haystack.data

end LiftCI


namespace LiftCI

theorem exceptOkBind {ε α β : Type} (a : α) (f : α → Except ε β) :
    ((Except.ok a : Except ε α) >>= f) = f a := rfl

theorem exceptErrorBind {ε α β : Type} (e : ε) (f : α → Except ε β) :
    ((Except.error e : Except ε α) >>= f) = Except.error e := rfl

theorem exceptPure {ε α : Type} (a : α) :
    (pure a : Except ε α) = Except.ok a := rfl

theorem lookupRcPath_mem (l : List (Int × String)) (rc : Int) (s : String)
    (h : lookupRcPath l rc = some s) : s ∈ l.map Prod.snd := by
  induction l with
  | nil => simp [lookupRcPath] at h
  | cons p rest ih =>
      obtain ⟨k0, v0⟩ := p
      simp only [lookupRcPath] at h
      by_cases hc : k0 = rc
      · rw [if_pos hc] at h
        have hv : v0 = s := Option.some.inj h
        subst hv
        simp
      · rw [if_neg hc] at h
        simp only [List.map_cons]
        exact List.mem_cons_of_mem _ (ih h)

theorem lookupStat_eq_of_perm {d1 d2 : StatsDict} (h : d1.Perm d2) (k : String) :
    (d1.map Prod.fst).Nodup → lookupStat d1 k = lookupStat d2 k := by
  induction h with
  | nil => intro _; rfl
  | cons x h ih =>
      intro hnd
      obtain ⟨kx, vx⟩ := x
      rw [List.map_cons, List.nodup_cons] at hnd
      by_cases hk : kx = k <;> simp [lookupStat, hk, ih hnd.2]
  | swap x y l =>
      intro hnd
      obtain ⟨kx, vx⟩ := x
      obtain ⟨ky, vy⟩ := y
      have hxy : ¬ ky = kx := by
        intro hh
        rw [List.map_cons, List.map_cons, List.nodup_cons] at hnd
        exact hnd.1 (by simp [hh])
      by_cases h1 : ky = k <;> by_cases h2 : kx = k <;>
        simp [lookupStat, h1, h2]
      exact absurd (h1.trans h2.symm) hxy
  | trans h1 h2 ih1 ih2 =>
      intro hnd
      have hnd2 := ((h1.map Prod.fst).nodup_iff).mp hnd
      exact (ih1 hnd).trans (ih2 hnd2)

theorem jsonToStatVal_statValToJson (v : StatVal) :
    jsonToStatVal (statValToJson v) = some v := by
  cases v with
  | int n => rfl
  | str s => rfl
  | list xs =>
      simp only [statValToJson, jsonToStatVal]
      have hx : decodeStrList (xs.map .str) = some xs := by
        induction xs with
        | nil => rfl
        | cons a t ih => simp [decodeStrList, ih]
      simp [hx]

theorem decodeFields_encode (d : StatsDict) :
    decodeFields (d.map (fun kv => (kv.1, statValToJson kv.2))) = some d := by
  induction d with
  | nil => rfl
  | cons p rest ih =>
      obtain ⟨k, v⟩ := p
      simp [decodeFields, jsonToStatVal_statValToJson, ih]

theorem inc_stat_ok_effect (d e : StatsDict) (key : String)
    (h : inc_stat d key = .ok e) :
    getIntD e key = getIntD d key + 1 ∧
    ∀ k2, ¬ key = k2 → lookupStat e k2 = lookupStat d k2 := by
  unfold inc_stat at h
  cases hl : lookupStat d key with
  | none =>
      rw [hl] at h
      have he : e = setEntry d key (.int 1) := (Except.ok.inj h).symm
      subst he
      refine ⟨?_, ?_⟩
      · simp [getIntD, lookup_setEntry, hl]
      · intro k2 hk2
        simp [lookup_setEntry, hk2]
  | some v =>
      cases v with
      | int n =>
          rw [hl] at h
          have he : e = setEntry d key (.int (n + 1)) := (Except.ok.inj h).symm
          subst he
          refine ⟨?_, ?_⟩
          · simp [getIntD, lookup_setEntry, hl]
          · intro k2 hk2
            simp [lookup_setEntry, hk2]
      | str s =>
          rw [hl] at h
          exact absurd h (by simp)
      | list xs =>
          rw [hl] at h
          exact absurd h (by simp)

end LiftCI

namespace LiftCI

/-- C1: the claim states that print_stats tolerates `program_runs == 0`
(absent or zero) without a division-by-zero error.  The code computes
`success_percent = 100.0 * success_items / program_runs` (stats.py:122)
BEFORE the `program_runs != 0` guard (stats.py:124), so on an empty run
(here: the empty stats state, where `program_runs` is absent and defaults
to 0) it raises ZeroDivisionError instead of completing; the guard one line
later shows the claim describes the evident intent. -/
theorem print_stats_zero_runs_raises :
    ∀ parseTime : String → Option Int,
      print_stats parseTime [] = Except.error PyErr.zeroDivision :=
  fun _ => rfl

/-- C2 counterexample: a skip rule that matches a discovered `.bc` file does
not remove it from the input set — `should_skip` reports a match, yet the
rellic main program still creates a work item (and hence an invocation) for
the file. -/
theorem skip_rule_matching_file_still_invoked_cex :
    should_skip [("tests.skip", StatVal.list ["skipme"])] "dir/skipme.bc" = .ok true ∧
    rellicMainInvocations [("tests.skip", StatVal.list ["skipme"])] ["dir/skipme.bc"] =
      [(0, "dir/skipme.bc")] := by
  exact ⟨rfl, by decide⟩

/-- C2 (amended): `should_skip(path)` returns true exactly when some element
of the loaded tests.skip list is a substring of path; however, no executor
ever consults it — the rellic input set is every discovered `*.bc` file, and
an invocation work item is produced for each one regardless of the loaded
rules, so skip-matching files are NOT excluded from execution. -/
theorem should_skip_substring_but_never_applied
    (rules : StatsDict) (path : String) (skips : List String) (files : List String)
    (h : ruleList rules "tests.skip" = .ok skips) :
    (should_skip rules path = .ok true ↔
      ∃ p ∈ skips, ∃ pre post, path.data = pre ++ p.data ++ post) ∧
    (rellicMainInvocations rules files).map Prod.snd = rellicSources files := by
  constructor
  · rw [should_skip, h]
    simp only [Except.map, Except.ok.injEq]
    rw [List.any_eq_true]
    constructor
    · rintro ⟨p, hp, hc⟩
      exact ⟨p, hp, (strContains_iff path p).mp hc⟩
    · rintro ⟨p, hp, hc⟩
      exact ⟨p, hp, (strContains_iff path p).mpr hc⟩
  · exact List.enum_map_snd (rellicSources files)

/-- C2 witness for the amended theorem at a concrete rules file and input
listing. -/
theorem should_skip_substring_but_never_applied_witness :
    ruleList [("tests.skip", StatVal.list ["m"])] "tests.skip" = .ok ["m"] ∧
    (rellicMainInvocations [("tests.skip", StatVal.list ["m"])] ["am.bc"]).map Prod.snd =
      rellicSources ["am.bc"] :=
  ⟨rfl,
   (should_skip_substring_but_never_applied
     [("tests.skip", StatVal.list ["m"])] "am.bc" ["m"] ["am.bc"] rfl).2⟩

/-- C4: get_fail_count equals
`(program_runs - |ignore_success| - |ignore_fail|) - (|output.success| + program_timeouts)`
for every stats state whose recorded outcomes have the expected shapes
(absent keys defaulting to zero or the empty list). -/
theorem get_fail_count_formula (d : StatsDict)
    (succ igS igF : List String) (pt pr : Int)
    (h1 : (lookupStat d "output.success").getD (.list []) = .list succ)
    (h2 : (lookupStat d "program_timeouts").getD (.int 0) = .int pt)
    (h3 : (lookupStat d "program_runs").getD (.int 0) = .int pr)
    (h4 : (lookupStat d "outputignore_success").getD (.list []) = .list igS)
    (h5 : (lookupStat d "outputignore_fail").getD (.list []) = .list igF) :
    get_fail_count d =
      .ok ((pr - ((igS.length : Int) + (igF.length : Int))) -
           ((succ.length : Int) + pt)) := by
  rw [get_fail_count, h1, h2, h3, h4, h5]
  rfl

/-- C4 witness at a concrete stats state. -/
theorem get_fail_count_formula_witness :
    (lookupStat [("program_runs", StatVal.int 10),
                 ("output.success", StatVal.list ["a", "b"]),
                 ("program_timeouts", StatVal.int 1),
                 ("outputignore_fail", StatVal.list ["c"])] "output.success").getD
        (.list []) = .list ["a", "b"] ∧
    get_fail_count [("program_runs", StatVal.int 10),
                    ("output.success", StatVal.list ["a", "b"]),
                    ("program_timeouts", StatVal.int 1),
                    ("outputignore_fail", StatVal.list ["c"])] = .ok 6 :=
  ⟨by decide,
   (get_fail_count_formula _ ["a", "b"] [] ["c"] 1 10 (by decide) (by decide)
     (by decide) (by decide) (by decide)).trans
     (congrArg Except.ok (by decide))⟩

/-- C9: the claim states that all three mutating operations are protected by
the single mutex and atomic (no lost increments).  In the code only add_stat
locks; inc_stat and set_stat mutate with no lock (their bodies carry the
comment "probably needs a lock but #YOLO"), and interleaving two unlocked
inc_stat calls loses an increment: the schedule read-read-write-write over
an empty dict leaves the counter at 1 where the two sequential (atomic)
increments leave 2. -/
theorem inc_stat_unlocked_lost_update :
    mutationsLocked (add_stat_actions "program_runs") = true ∧
    mutationsLocked (inc_stat_actions "program_runs") = false ∧
    mutationsLocked (set_stat_actions "program_runs") = false ∧
    runIncSched "program_runs" [false, true, false, true] [] ⟨0, 0⟩ ⟨0, 0⟩ =
      [("program_runs", StatVal.int 1)] ∧
    (inc_stat [] "program_runs" >>= fun d => inc_stat d "program_runs") =
      .ok [("program_runs", StatVal.int 2)] :=
  ⟨rfl, rfl, rfl, rfl, rfl⟩

/-- C10: every concrete save() implementation first checks
`if self.rc is None: raise RuntimeError("Return code never set")`, so calling
save() before run() has set a return code raises and performs no effect at
all — no stats key is recorded and no directory or file is touched (the
abstract base ToolCmd.save always raises). -/
theorem save_before_run_raises (rules : StatsDict) (st : CmdState)
    (h : st.rc = none) :
    rellicSave rules st = ([], some (.runtimeError "Return code never set")) ∧
    anvillGhidraSave rules st = ([], some (.runtimeError "Return code never set")) ∧
    clangSave rules st = ([], some (.runtimeError "Return code never set")) ∧
    toolCmdSave = ([], some (.runtimeError "Please implement the save() method")) := by
  refine ⟨?_, ?_, ?_, rfl⟩
  · rw [rellicSave, h]
  · rw [anvillGhidraSave, h]
  · rw [clangSave, h]

/-- C10 witness at a concrete command state with an unset return code. -/
theorem save_before_run_raises_witness :
    ({ infile := "in.bc", infileRel := "in.bc", outdir := "out", tmpout := "t",
       cmd := [], rc := none, out := "", err := "" } : CmdState).rc = none ∧
    rellicSave [] { infile := "in.bc", infileRel := "in.bc", outdir := "out",
                    tmpout := "t", cmd := [], rc := none, out := "", err := "" } =
      ([], some (.runtimeError "Return code never set")) :=
  ⟨rfl, (save_before_run_raises [] _ rfl).1⟩

end LiftCI

namespace LiftCI

/-- C6: if the child exits 0 but the expected output artifact at tmpout is
missing or has zero length, run() stores and returns the -129 sentinel, and
the final category is "zero-sized-output", not "success". -/
theorem run_zero_sized_output (o e : String) (tmpExists : Bool) (tmpSize : Nat)
    (stats stats1 : StatsDict)
    (hinc : inc_stat stats "program_runs" = .ok stats1)
    (hzero : tmpExists = false ∨ tmpSize = 0) :
    runCmd (.completed 0 o e) tmpExists tmpSize stats =
      .ok ⟨-129, some (-129), o, e ++ "\n" ++ "Zero sized output", stats1,
           [.incStat "program_runs", .spawnChild]⟩ ∧
    get_output_path (-129) (e ++ "\n" ++ "Zero sized output") = "zero-sized-output" ∧
    ("zero-sized-output" : String) ≠ "success" := by
  refine ⟨?_, rfl, by decide⟩
  have hz : zeroOutput tmpExists tmpSize = true := by
    rcases hzero with h | h
    · subst h; rfl
    · subst h; cases tmpExists <;> rfl
  simp only [runCmd, hinc, exceptOkBind, hz, exceptPure, if_true]

/-- C6 witness at the empty stats state. -/
theorem run_zero_sized_output_witness :
    inc_stat [] "program_runs" = .ok [("program_runs", StatVal.int 1)] ∧
    get_output_path (-129) ("" ++ "\n" ++ "Zero sized output") = "zero-sized-output" :=
  ⟨rfl,
   (run_zero_sized_output "" "" true 0 [] [("program_runs", StatVal.int 1)]
     rfl (Or.inr rfl)).2.1⟩

/-- C7 counterexample: the claim states the counters are incremented at the
moment the outcome is known.  In the code `self.stats.inc_stat("program_runs")`
(toolcmd.py:146) runs BEFORE `subprocess.run` (toolcmd.py:147), so a counter
increment occurs strictly before the child process is spawned and before any
outcome can be known. -/
theorem program_runs_incremented_before_outcome_cex :
    (runCmd (.completed 0 "" "") true 5 []).map (fun r => incBeforeSpawn r.trace) =
      .ok true := by
  decide

/-- C7 (amended): every run() call increments program_runs exactly once, at
the start of the invocation attempt (immediately before the child process is
spawned, not at construction and not when the outcome is known), and
increments program_timeouts exactly once if and only if the run times out,
at the moment the timeout is known. -/
theorem run_counter_increments (spawn : SpawnResult) (tmpExists : Bool)
    (tmpSize : Nat) (stats : StatsDict) (r : RunResult)
    (h : runCmd spawn tmpExists tmpSize stats = .ok r) :
    r.trace = [.incStat "program_runs", .spawnChild] ++
      (if isTimeout spawn then [.incStat "program_timeouts"] else []) ∧
    countKey r.trace "program_runs" = 1 ∧
    countKey r.trace "program_timeouts" = (if isTimeout spawn then 1 else 0) ∧
    getIntD r.stats "program_runs" = getIntD stats "program_runs" + 1 ∧
    getIntD r.stats "program_timeouts" =
      getIntD stats "program_timeouts" + (if isTimeout spawn then 1 else 0) := by
  have hc1 : countKey [RunEvent.incStat "program_runs", RunEvent.spawnChild]
      "program_runs" = 1 := by decide
  have hc2 : countKey [RunEvent.incStat "program_runs", RunEvent.spawnChild]
      "program_timeouts" = 0 := by decide
  have hc3 : countKey [RunEvent.incStat "program_runs", RunEvent.spawnChild,
      RunEvent.incStat "program_timeouts"] "program_runs" = 1 := by decide
  have hc4 : countKey [RunEvent.incStat "program_runs", RunEvent.spawnChild,
      RunEvent.incStat "program_timeouts"] "program_timeouts" = 1 := by decide
  cases hinc : inc_stat stats "program_runs" with
  | error e1 =>
      rw [runCmd] at h
      rw [hinc, exceptErrorBind] at h
      exact absurd h (by simp)
  | ok stats1 =>
      have heff := inc_stat_ok_effect stats stats1 "program_runs" hinc
      cases spawn with
      | osError strerror =>
          simp only [runCmd, hinc, exceptOkBind, exceptPure] at h
          have hr := (Except.ok.inj h).symm
          subst hr
          refine ⟨rfl, hc1, hc2, heff.1, ?_⟩
          simp [getIntD, isTimeout, heff.2 "program_timeouts" (by decide)]
      | calledProcessError rc o e =>
          simp only [runCmd, hinc, exceptOkBind, exceptPure] at h
          have hr := (Except.ok.inj h).symm
          subst hr
          refine ⟨rfl, hc1, hc2, heff.1, ?_⟩
          simp [getIntD, isTimeout, heff.2 "program_timeouts" (by decide)]
      | timeoutExpired o e =>
          simp only [runCmd, hinc, exceptOkBind] at h
          cases hinc2 : inc_stat stats1 "program_timeouts" with
          | error e2 =>
              rw [hinc2, exceptErrorBind] at h
              exact absurd h (by simp)
          | ok stats2 =>
              rw [hinc2, exceptOkBind] at h
              have heff2 := inc_stat_ok_effect stats1 stats2 "program_timeouts" hinc2
              have hr : r = ⟨-131, some (-131), o, e, stats2,
                  [.incStat "program_runs", .spawnChild,
                   .incStat "program_timeouts"]⟩ := (Except.ok.inj h).symm
              subst hr
              refine ⟨rfl, hc3, hc4, ?_, ?_⟩
              · have hpres := heff2.2 "program_runs" (by decide)
                have h1 := heff.1
                simp only [getIntD] at h1 ⊢
                rw [hpres]
                exact h1
              · have hpres : lookupStat stats1 "program_timeouts" =
                    lookupStat stats "program_timeouts" :=
                  heff.2 "program_timeouts" (by decide)
                have h2 := heff2.1
                simp only [getIntD] at h2 ⊢
                rw [h2, hpres]
                simp [isTimeout]
      | completed rc o e =>
          simp only [runCmd, hinc, exceptOkBind] at h
          by_cases hzc : zeroOutput tmpExists tmpSize = true
          · rw [if_pos hzc] at h
            have hr := (Except.ok.inj h).symm
            subst hr
            refine ⟨rfl, hc1, hc2, heff.1, ?_⟩
            simp [getIntD, isTimeout, heff.2 "program_timeouts" (by decide)]
          · rw [if_neg hzc] at h
            have hr := (Except.ok.inj h).symm
            subst hr
            refine ⟨rfl, hc1, hc2, heff.1, ?_⟩
            simp [getIntD, isTimeout, heff.2 "program_timeouts" (by decide)]

/-- C7 witness for the amended theorem at a concrete timed-out run. -/
theorem run_counter_increments_witness :
    runCmd (.timeoutExpired "" "") true 5 [] =
      .ok ⟨-131, some (-131), "", "",
           [("program_runs", StatVal.int 1), ("program_timeouts", StatVal.int 1)],
           [.incStat "program_runs", .spawnChild, .incStat "program_timeouts"]⟩ ∧
    countKey [RunEvent.incStat "program_runs", RunEvent.spawnChild,
              RunEvent.incStat "program_timeouts"] "program_runs" = 1 :=
  ⟨by decide,
   (run_counter_increments (.timeoutExpired "" "") true 5 []
     ⟨-131, some (-131), "", "",
      [("program_runs", StatVal.int 1), ("program_timeouts", StatVal.int 1)],
      [.incStat "program_runs", .spawnChild, .incStat "program_timeouts"]⟩
     (by decide)).2.1⟩

end LiftCI

namespace LiftCI

/-- C8: save_json followed by load_json reproduces an identical stats state:
the document written by save_json decodes to the key-sorted entry list,
which is a permutation of the original entries (same key set, same scalar
values, same list contents in the same order); with unique keys (a Python
dict can hold each key once) every lookup is unchanged. -/
theorem save_json_load_json_roundtrip (d : StatsDict)
    (hnd : (d.map Prod.fst).Nodup) :
    load_json (save_json d) = some (sortByKey d) ∧
    (sortByKey d).Perm d ∧
    ∀ k, lookupStat (sortByKey d) k = lookupStat d k := by
  refine ⟨?_, ?_, ?_⟩
  · simp only [save_json, load_json]
    exact decodeFields_encode (sortByKey d)
  · exact List.mergeSort_perm d _
  · intro k
    have hperm : (sortByKey d).Perm d := List.mergeSort_perm d _
    have hnds : ((sortByKey d).map Prod.fst).Nodup :=
      ((hperm.map Prod.fst).nodup_iff).mpr hnd
    exact lookupStat_eq_of_perm hperm k hnds

/-- C8 witness at a concrete two-entry stats state. -/
theorem save_json_load_json_roundtrip_witness :
    (([("b", StatVal.list ["x", "y"]), ("a", StatVal.int 3)] : StatsDict).map
        Prod.fst).Nodup ∧
    lookupStat (sortByKey [("b", StatVal.list ["x", "y"]), ("a", StatVal.int 3)]) "b" =
      lookupStat [("b", StatVal.list ["x", "y"]), ("a", StatVal.int 3)] "b" :=
  ⟨by decide,
   (save_json_load_json_roundtrip
     [("b", StatVal.list ["x", "y"]), ("a", StatVal.int 3)] (by decide)).2.2 "b"⟩

end LiftCI

namespace LiftCI

theorem asan_traceback_eq_lastLineMatch (msg : String) :
    asan_traceback msg = lastLineMatch asanLineMatch msg := by
  by_cases hm : msg = ""
  · subst hm; rfl
  · rw [asan_traceback, if_neg hm, lastLineMatch]
    exact findSome?_reverse_eq_getLast? _ _

theorem clang_traceback_eq_lastLineMatch (msg : String) :
    clang_traceback msg = lastLineMatch clangLineMatch msg := by
  by_cases hm : msg = ""
  · subst hm; rfl
  · rw [clang_traceback, if_neg hm, lastLineMatch]
    exact findSome?_reverse_eq_getLast? _ _

theorem python_traceback_eq_lastLineMatch (msg : String) :
    python_traceback msg = lastLineMatch pythonLineMatch msg := by
  by_cases hm : msg = ""
  · subst hm; rfl
  · rw [python_traceback, if_neg hm, lastLineMatch]
    exact findSome?_reverse_eq_getLast? _ _

theorem c_abort_eq_spec (msg : String) :
    c_abort msg = (firstLineMatch fatalLineMatch msg).orElse
      (fun _ => lastLineMatch fileNameLineMatch msg) := by
  by_cases hm : msg = ""
  · subst hm; rfl
  · rw [c_abort, if_neg hm]
    have h1 : (pySplitLines msg).findSome?
        (fun ln => if ln.startsWith "F" then fileNameLineMatch ln else none) =
        firstLineMatch fatalLineMatch msg := by
      rw [firstLineMatch, ← findSome?_eq_head?_filterMap]
      rfl
    rw [h1]
    cases hfm : firstLineMatch fatalLineMatch msg with
    | some r => rfl
    | none =>
        show (pySplitLines msg).reverse.findSome? fileNameLineMatch = _
        rw [findSome?_reverse_eq_getLast?]
        rfl

/-- C5: the classification scan structure follows the specified order and
directions — for exit status 1 each helper extracts from the textually LAST
matching stderr line (the code scans the reversed line list), the dispatch
tries the sanitizer pattern, then the compiler-error pattern, then the
runtime-traceback pattern before the generic tag; for SIGABRT the code first
scans top-to-bottom for a fatal-log line starting with "F" with an
extractable file:line, then bottom-to-top for any file:line, then falls back
to the generic signal tag. -/
theorem classifier_scan_structure (msg err : String) :
    asan_traceback msg = lastLineMatch asanLineMatch msg ∧
    clang_traceback msg = lastLineMatch clangLineMatch msg ∧
    python_traceback msg = lastLineMatch pythonLineMatch msg ∧
    c_abort msg = (firstLineMatch fatalLineMatch msg).orElse
      (fun _ => lastLineMatch fileNameLineMatch msg) ∧
    get_output_path 1 err = specExitOneCategory "Assertion" err ∧
    get_output_path (-6) err = specAbortCategory err := by
  refine ⟨asan_traceback_eq_lastLineMatch msg, clang_traceback_eq_lastLineMatch msg,
          python_traceback_eq_lastLineMatch msg, c_abort_eq_spec msg, ?_, ?_⟩
  · rw [specExitOneCategory, ← asan_traceback_eq_lastLineMatch err,
        ← clang_traceback_eq_lastLineMatch err, ← python_traceback_eq_lastLineMatch err]
    rfl
  · rw [specAbortCategory, ← c_abort_eq_spec err]
    rfl

theorem get_output_path_eq_one (err : String) :
    get_output_path 1 err =
      (if strContains err "AddressSanitizer" then (asan_traceback err).getD "Assertion"
       else if strContains err "errors generated." || strContains err "error generated."
         then (clang_traceback err).getD "Assertion"
       else (python_traceback err).getD "Assertion") := rfl

theorem get_output_path_eq_abort (err : String) :
    get_output_path (-6) err = (c_abort err).getD "sigabrt" := rfl

theorem get_output_path_eq_default (rc : Int) (err : String)
    (h1 : ¬ rc = 1) (h6 : ¬ rc = -6) :
    get_output_path rc err =
      (lookupRcPath rc_to_path rc).getD ("unknown_" ++ toString rc) := by
  simp [get_output_path, h1, h6]

/-- C3 counterexample: the claim names the could-not-start category
`os-error`, but the code maps the -130 sentinel to the string "oserror"
(and likewise uses "Assertion" rather than `assertion-failure`, and
"unknown_<code>" rather than `unknown-<code>`). -/
theorem category_name_oserror_cex :
    get_output_path (-130) "" = "oserror" ∧ ("oserror" : String) ≠ "os-error" :=
  ⟨rfl, by decide⟩

/-- C3 (amended): the final category of a completed invocation is drawn from
the canonical rc_to_path names or is a derived tag; the could-not-start
sentinel maps to "oserror", exit code 1 with no recognizable stderr pattern
maps to "Assertion", and any unmapped exit status maps to
"unknown_" followed by the status (Python renders `unknown_{rc}` with an
underscore). -/
theorem get_output_path_category_names (rc : Int) (err : String) :
    get_output_path (-130) err = "oserror" ∧
    ((asan_traceback err = none ∧ clang_traceback err = none ∧
      python_traceback err = none) → get_output_path 1 err = "Assertion") ∧
    (lookupRcPath rc_to_path rc = none →
      get_output_path rc err = "unknown_" ++ toString rc) ∧
    (get_output_path rc err ∈ canonicalCategories ∨
     get_output_path rc err ∈ derivedTags err ∨
     get_output_path rc err = "unknown_" ++ toString rc) := by
  refine ⟨rfl, ?_, ?_, ?_⟩
  · rintro ⟨ha, hcg, hp⟩
    rw [get_output_path_eq_one, ha, hcg, hp]
    split
    · rfl
    · split <;> rfl
  · intro hnone
    have h1 : ¬ rc = 1 := by
      intro h
      rw [h] at hnone
      exact absurd hnone (by decide)
    have h6 : ¬ rc = -6 := by
      intro h
      rw [h] at hnone
      exact absurd hnone (by decide)
    rw [get_output_path_eq_default rc err h1 h6, hnone]
    rfl
  · by_cases h1 : rc = 1
    · subst h1
      rw [get_output_path_eq_one]
      by_cases hc1 : strContains err "AddressSanitizer"
      · rw [if_pos hc1]
        cases hres : asan_traceback err with
        | none => exact Or.inl (by decide)
        | some v =>
            refine Or.inr (Or.inl ?_)
            simp [derivedTags, hres]
      · rw [if_neg hc1]
        by_cases hc2 : strContains err "errors generated." ||
            strContains err "error generated."
        · rw [if_pos hc2]
          cases hres : clang_traceback err with
          | none => exact Or.inl (by decide)
          | some v =>
              refine Or.inr (Or.inl ?_)
              simp [derivedTags, hres]
        · rw [if_neg hc2]
          cases hres : python_traceback err with
          | none => exact Or.inl (by decide)
          | some v =>
              refine Or.inr (Or.inl ?_)
              simp [derivedTags, hres]
    · by_cases h6 : rc = -6
      · subst h6
        rw [get_output_path_eq_abort]
        cases hres : c_abort err with
        | none => exact Or.inl (by decide)
        | some v =>
            refine Or.inr (Or.inl ?_)
            simp [derivedTags, hres]
      · rw [get_output_path_eq_default rc err h1 h6]
        cases hlook : lookupRcPath rc_to_path rc with
        | none => exact Or.inr (Or.inr rfl)
        | some s =>
            have hmem := lookupRcPath_mem rc_to_path rc s hlook
            have hcc : canonicalCategories = rc_to_path.map Prod.snd := by decide
            exact Or.inl (by rw [hcc]; exact hmem)

/-- C3 witness for the amended theorem at a concrete unmapped status and an
empty stderr. -/
theorem get_output_path_category_names_witness :
    (asan_traceback "" = none ∧ clang_traceback "" = none ∧
      python_traceback "" = none) ∧
    lookupRcPath rc_to_path 5 = none ∧
    get_output_path 1 "" = "Assertion" ∧
    get_output_path 5 "" = "unknown_" ++ toString (5 : Int) :=
  ⟨⟨rfl, rfl, rfl⟩, rfl,
   (get_output_path_category_names 5 "").2.1 ⟨rfl, rfl, rfl⟩,
   (get_output_path_category_names 5 "").2.2.1 rfl⟩

end LiftCI
